import Mathlib

/-!
Verification of the pool-analysis scripts (pool-name parsing, token
allowlists, APY calculation, ranking) against their natural-language
specification.  Python strings are modelled as `List Char`, Python floats
as exact rationals (`ℚ`), fallible Python operations (dict lookup,
`float(...)` conversion) as `Except PyExn`.
-/

/-- Python exceptions that the scripts catch around record processing. -/
inductive PyExn where
  | keyError
  | valueError
  | typeError
  | indexError
deriving DecidableEq, Repr

/-- A Python string, modelled as its list of characters. -/
abbrev PyStr := List Char

/-- The character list of a Lean string literal (used to write `PyStr` literals). -/
def pys (s : String) : PyStr := s.data

/-- The whitespace characters stripped and split on by Python `str.strip()` /
`str.split()` (ASCII model). -/
def isPySpace (c : Char) : Bool :=
  c = ' ' || c = '\t' || c = '\n' || c = '\x0d' || c = '\x0b' || c = '\x0c'

/-- Split a character list at every character satisfying `p`, keeping empty
pieces: the model of Python `str.split(sep)` for a one-character `sep`
(`p := (· = sep)`).  `splitOnPred p [] = [[]]`, matching `"".split(sep) == [""]`. -/
def splitOnPred (p : Char → Bool) : List Char → List (List Char)
  | [] => [[]]
  | c :: cs =>
    match splitOnPred p cs with
    | [] => [[]]
    | q :: qs => if p c then [] :: q :: qs else (c :: q) :: qs

/-- Python `name.split('/')`. -/
def pySplitSlash (l : PyStr) : List PyStr := splitOnPred (· = '/') l

/-- Python `s.split()` (no separator): maximal runs of non-whitespace
characters, with no empty tokens. -/
def pySplitWs (l : PyStr) : List PyStr :=
  (splitOnPred isPySpace l).filter (· ≠ [])

/-- Remove trailing whitespace (helper for the model of `str.strip()`). -/
def stripTrailing : PyStr → PyStr
  | [] => []
  | c :: cs =>
    match stripTrailing cs with
    | [] => if isPySpace c then [] else [c]
    | r => c :: r

/-- Python `s.strip()`: drop leading and trailing whitespace. -/
def pyStrip (l : PyStr) : PyStr := stripTrailing (l.dropWhile isPySpace)

/-- Python `s.upper()` (ASCII model, via `Char.toUpper`). -/
def pyUpper (l : PyStr) : PyStr := l.map Char.toUpper

/-- Python `s.replace('%', '')`: remove every `'%'` character. -/
def pyReplacePct (l : PyStr) : PyStr := l.filter (· ≠ '%')

/-- Python `s.rstrip('%')`: remove trailing `'%'` characters only. -/
def pyRstripPct (l : PyStr) : PyStr :=
  ((l.reverse).dropWhile (· = '%')).reverse

/-- Decimal digit test. -/
def isDigit (c : Char) : Bool := '0' ≤ c && c ≤ '9'

/-- Numeric value of a list of decimal digits. -/
def natOfDigits (l : PyStr) : ℕ :=
  l.foldl (fun n c => 10 * n + (c.toNat - 48)) 0

/-- Consume an optional leading sign, returning the sign as `±1`. -/
def parseSign : PyStr → ℤ × PyStr
  | '+' :: l => (1, l)
  | '-' :: l => (-1, l)
  | l => (1, l)

/-- Parse the mantissa of a Python float literal:
`digits`, `digits.digits`, `digits.` or `.digits`. -/
def parseMantissa (l : PyStr) : Option ℚ :=
  match splitOnPred (· = '.') l with
  | [ds] =>
    if ds ≠ [] && ds.all isDigit then some (natOfDigits ds) else none
  | [ds, fs] =>
    if (ds ++ fs) ≠ [] && ds.all isDigit && fs.all isDigit then
      some ((natOfDigits ds : ℚ) + (natOfDigits fs : ℚ) / 10 ^ fs.length)
    else none
  | _ => none

/-- Parse the exponent part (after `e`/`E`) of a Python float literal. -/
def parseExponent (l : PyStr) : Option ℤ :=
  let (sgn, rest) := parseSign l
  if rest ≠ [] && rest.all isDigit then some (sgn * natOfDigits rest) else none

/-- Python `float(s)` on finite decimal literals (optional surrounding
whitespace, optional sign, decimal mantissa, optional decimal exponent),
raising `ValueError` on anything else. -/
def pyFloatTry (l : PyStr) : Except PyExn ℚ :=
  let s := pyStrip l
  let (sgn, rest) := parseSign s
  match splitOnPred (fun c => c = 'e' || c = 'E') rest with
  | [m] =>
    match parseMantissa m with
    | some q => .ok ((sgn : ℚ) * q)
    | none => .error .valueError
  | [m, e] =>
    match parseMantissa m, parseExponent e with
    | some q, some k => .ok ((sgn : ℚ) * q * (10 : ℚ) ^ k)
    | _, _ => .error .valueError
  | _ => .error .valueError

/-- Python `float(s)` with the result of a failed conversion collapsed to
`none` (the scripts always catch the `ValueError`). -/
def pyFloat (l : PyStr) : Option ℚ := (pyFloatTry l).toOption

/-- `parse_pool_name` from `analyze_pools_revised.py` (identical in
`analyze_pools_with_30d_data.py`): split the display name on `'/'`; with
fewer than two segments return `(None, None, None)`; otherwise token A is the
left segment stripped and upper-cased, the right segment is stripped and
whitespace-split; with fewer than two right-hand tokens return
`(None, None, None)`; otherwise token B is the first right-hand token
upper-cased and the fee tier is `float` of the second with `'%'` characters
removed, `None` when the conversion raises `ValueError`. -/
def parse_pool_name (pool_name : PyStr) : Option PyStr × Option PyStr × Option ℚ :=
  match pySplitSlash pool_name with
  | p0 :: p1 :: _ =>
    let token1 := pyUpper (pyStrip p0)
    match pySplitWs (pyStrip p1) with
    | t2 :: feeTok :: _ =>
      let token2 := pyUpper t2
      let fee_str := pyReplacePct feeTok
      let fee_tier : Option ℚ :=
        match pyFloatTry fee_str with
        | .ok q => some q
        | .error _ => none
      (some token1, some token2, fee_tier)
    | _ => (none, none, none)
  | _ => (none, none, none)

/-- The `STABLECOINS` set of `analyze_pools_revised.py`. -/
def STABLECOINS : List PyStr :=
  [pys "USDT", pys "USDC", pys "DAI", pys "BUSD", pys "FRAX", pys "USDD",
   pys "TUSD", pys "USDP", pys "USDE", pys "USDS", pys "PYUSD", pys "RLUSD",
   pys "USDG", pys "USYC", pys "USDF", pys "BSC-USD", pys "SUSDS",
   pys "SUSDE", pys "BFUSD", pys "USD1", pys "USDT0", pys "SYRUPUSDC",
   pys "GUSD", pys "LUSD", pys "SUSD", pys "FDUSD", pys "CUSD"]

/-- The `MAJOR_COINS` set of `analyze_pools_revised.py`. -/
def MAJOR_COINS : List PyStr :=
  [pys "BTC", pys "WBTC", pys "CBBTC", pys "FBTC", pys "TBTC", pys "HBTC",
   pys "RENBTC", pys "ETH", pys "WETH", pys "STETH", pys "WSTETH",
   pys "RETH", pys "CBETH", pys "WBETH", pys "WEETH", pys "BETH",
   pys "SFRXETH", pys "FRXETH", pys "EETH", pys "RSETH"]

/-- `is_allowed_token` from `analyze_pools_revised.py`: upper-case the symbol
and test membership in the union of the three allowlist sets.  The top-100
set is loaded from an external snapshot file at process start, so it is a
parameter here. -/
def is_allowed_token (top100 : List PyStr) (symbol : PyStr) : Bool :=
  let s := pyUpper symbol
  decide (s ∈ STABLECOINS) || decide (s ∈ MAJOR_COINS) || decide (s ∈ top100)

/-- `is_allowed_pool` from `analyze_pools_revised.py`: parse the name; the
Python test `if not token1 or not token2` rejects both `None` and empty
tokens; otherwise both legs must pass `is_allowed_token`. -/
def is_allowed_pool (top100 : List PyStr) (pool_name : PyStr) : Bool :=
  match parse_pool_name pool_name with
  | (some token1, some token2, _) =>
    if token1 = [] || token2 = [] then false
    else is_allowed_token top100 token1 && is_allowed_token top100 token2
  | _ => false

/-- A field of a pool record dictionary, as seen by
`float(pool['attributes'][...])`: missing key (`KeyError`), a non-numeric
string (`ValueError`), a value of the wrong type (`TypeError`), or a numeric
value. -/
inductive PyField where
  | missing
  | nonNumericStr
  | wrongType
  | num (q : ℚ)
deriving DecidableEq

/-- Evaluate `float(pool[...][...])` on a field: the exception it raises, or
the numeric value. -/
def PyField.toFloat : PyField → Except PyExn ℚ
  | .missing => .error .keyError
  | .nonNumericStr => .error .valueError
  | .wrongType => .error .typeError
  | .num q => .ok q

/-- The two fields of a pool record read by `calculate_apy_24h`. -/
structure Pool24 where
  volume_usd_h24 : PyField
  reserve_in_usd : PyField
deriving DecidableEq

/-- The body of the `try:` block of `calculate_apy_24h`
(`analyze_pools_revised.py`, identical in `analyze_pools_with_30d_data.py`):
read and convert the two fields, return `0` when `reserve_usd == 0` or the
fee tier is `None`, otherwise `(volume * (fee/100) / reserve) * 365 * 100`. -/
def calculate_apy_24h_try (pool : Pool24) (fee_tier : Option ℚ) : Except PyExn ℚ :=
  match pool.volume_usd_h24.toFloat with
  | .error e => .error e
  | .ok volume_24h =>
    match pool.reserve_in_usd.toFloat with
    | .error e => .error e
    | .ok reserve_usd =>
      match fee_tier with
      | none => .ok 0
      | some ft =>
        if reserve_usd = 0 then .ok 0
        else
          let fees_24h := volume_24h * (ft / 100)
          .ok (fees_24h / reserve_usd * 365 * 100)

/-- `calculate_apy_24h`: the `try:` body with
`except (KeyError, ValueError, TypeError): return 0`. -/
def calculate_apy_24h (pool : Pool24) (fee_tier : Option ℚ) : ℚ :=
  match calculate_apy_24h_try pool fee_tier with
  | .ok apy => apy
  | .error _ => 0

/-- `calculate_apy_30d` from `analyze_pools_with_30d_data.py`: return `0`
when the average TVL equals `0`, the fee tier is `None`, or the 30-day
volume is `None`; otherwise annualize with a fixed `365 / 30` factor. -/
def calculate_apy_30d (volume_30d : Option ℚ) (avg_tvl_30d : ℚ)
    (fee_tier : Option ℚ) : ℚ :=
  match volume_30d, fee_tier with
  | some v30, some ft =>
    if avg_tvl_30d = 0 then 0
    else
      let total_fees_30d := v30 * (ft / 100)
      total_fees_30d / avg_tvl_30d * ((365 : ℚ) / 30) * 100
  | _, _ => 0

/-- One `poolDayData` record returned by The Graph, with its numeric-string
fields already converted by `float(...)`. -/
structure DayData where
  volumeUSD : ℚ
  tvlUSD : ℚ
  feesUSD : ℚ
deriving DecidableEq

/-- The aggregation step of `fetch_30d_volume_from_thegraph`
(`analyze_pools_with_30d_data.py`): on an empty day list return
`None, None, None`; otherwise total volume, the average of every day's TVL,
and total fees. -/
def fetch_30d_volume_from_thegraph (pool_day_data : List DayData) :
    Option (ℚ × ℚ × ℚ) :=
  if pool_day_data = [] then none
  else
    some ((pool_day_data.map (·.volumeUSD)).sum,
          (pool_day_data.map (·.tvlUSD)).sum / (pool_day_data.length : ℚ),
          (pool_day_data.map (·.feesUSD)).sum)

/-- The APY metrics dictionary built by `calculate_apy_from_thegraph_data`
(`fetch_apy_thegraph.py`). -/
structure ApyMetrics where
  apy_30d : ℚ
  total_fees_usd : ℚ
  avg_tvl_usd : ℚ
  total_volume_usd : ℚ
  days_count : ℕ
deriving DecidableEq

/-- `calculate_apy_from_thegraph_data` (`fetch_apy_thegraph.py`): on a
missing or empty `poolDayData` list return all-zero metrics; otherwise sum
fees and volume over every day, average the TVL over the days whose TVL is
`> 0` only, take `days_count` from the series length, and annualize with
`365.0 / days_count` when the average TVL and the day count are positive. -/
def calculate_apy_from_thegraph_data (pool_day_data : List DayData) : ApyMetrics :=
  if pool_day_data = [] then ⟨0, 0, 0, 0, 0⟩
  else
    let total_fees := (pool_day_data.map (·.feesUSD)).sum
    let total_volume := (pool_day_data.map (·.volumeUSD)).sum
    let tvl_values := (pool_day_data.map (·.tvlUSD)).filter (fun t => 0 < t)
    let avg_tvl : ℚ :=
      if tvl_values = [] then 0 else tvl_values.sum / (tvl_values.length : ℚ)
    let days_count := pool_day_data.length
    let apy_30d : ℚ :=
      if 0 < avg_tvl ∧ 0 < days_count then
        total_fees / avg_tvl * ((365 : ℚ) / (days_count : ℚ)) * 100
      else 0
    ⟨apy_30d, total_fees, avg_tvl, total_volume, days_count⟩

/-- The fields of a surviving pool entry that the ranking step reads
(`analyze_pools_revised.py`). -/
structure PoolInfo where
  name : PyStr
  apy_combined : ℚ
deriving DecidableEq

/-- `pools_sorted = sorted(pools, key=lambda x: x['apy_combined'],
reverse=True)` (`analyze_pools_revised.py`).  Python's `sorted` is a stable
sort and `reverse=True` keeps equal-key elements in arrival order, so it is
embedded as the stable insertion sort under the descending-key relation. -/
def pools_sorted (pools : List PoolInfo) : List PoolInfo :=
  List.insertionSort (fun a b => b.apy_combined ≤ a.apy_combined) pools

/-- The fee-tier extraction of `analyze_all_pools.py` (lines 27-32) together
with the exceptions its surrounding `try:` catches: when the name contains
no `'%'` the fee rate silently defaults to `0.003`; otherwise the last
whitespace-separated token with trailing `'%'` stripped is converted by
`float` (raising `ValueError` when malformed; `name.split()[-1]` raises
`IndexError` on an all-whitespace name) and divided by `100`. -/
def fee_rate (name : PyStr) : Except PyExn ℚ :=
  if '%' ∈ name then
    match (pySplitWs name).getLast? with
    | none => .error .indexError
    | some lastTok =>
      match pyFloatTry (pyRstripPct lastTok) with
      | .ok q => .ok (q / 100)
      | .error e => .error e
  else .ok (3 / 1000)

/-! ### Helper lemmas -/

theorem pyFloat_eq_some_iff {s : PyStr} {q : ℚ} :
    pyFloat s = some q ↔ pyFloatTry s = .ok q := by
  cases h : pyFloatTry s <;> simp [pyFloat, h, Except.toOption]

theorem splitOnPred_ne_nil (p : Char → Bool) (l : List Char) :
    splitOnPred p l ≠ [] := by
  cases l with
  | nil => simp [splitOnPred]
  | cons c cs =>
    cases h : splitOnPred p cs with
    | nil => simp [splitOnPred, h]
    | cons q qs =>
      simp only [splitOnPred, h]
      split <;> simp

theorem splitOnPred_of_all_not {p : Char → Bool} {l : List Char}
    (h : ∀ c ∈ l, p c = false) : splitOnPred p l = [l] := by
  induction l with
  | nil => rfl
  | cons c cs ih =>
    have hc : p c = false := h c (by simp)
    have ihh := ih fun a ha => h a (by simp [ha])
    simp [splitOnPred, ihh, hc]

theorem splitOnPred_cons_true {p : Char → Bool} {c : Char} (hc : p c = true)
    (l : List Char) : splitOnPred p (c :: l) = [] :: splitOnPred p l := by
  cases h : splitOnPred p l with
  | nil => exact absurd h (splitOnPred_ne_nil p l)
  | cons q qs => simp [splitOnPred, h, hc]

theorem splitOnPred_append_left {p : Char → Bool} {xs : List Char}
    (hx : ∀ c ∈ xs, p c = false) {ys : List Char} {q : List Char}
    {qs : List (List Char)} (hy : splitOnPred p ys = q :: qs) :
    splitOnPred p (xs ++ ys) = (xs ++ q) :: qs := by
  induction xs with
  | nil => simpa using hy
  | cons c cs ih =>
    have hc : p c = false := hx c (by simp)
    have ihh := ih fun a ha => hx a (by simp [ha])
    simp [splitOnPred, ihh, hc]

theorem stripTrailing_append_last {l : List Char} {c : Char}
    (hc : isPySpace c = false) : stripTrailing (l ++ [c]) = l ++ [c] := by
  induction l with
  | nil => simp [stripTrailing, hc]
  | cons a as ih =>
    simp only [List.cons_append, stripTrailing, List.append_eq]
    rw [ih]
    cases h : as ++ [c] with
    | nil => exact absurd h (by simp)
    | cons b bs => rfl

theorem parse_pool_name_eq {name p0 p1 : PyStr} {rest : List PyStr}
    {t2 feeTok : PyStr} {rest2 : List PyStr}
    (h1 : pySplitSlash name = p0 :: p1 :: rest)
    (h2 : pySplitWs (pyStrip p1) = t2 :: feeTok :: rest2) :
    parse_pool_name name =
      (some (pyUpper (pyStrip p0)), some (pyUpper t2),
       pyFloat (pyReplacePct feeTok)) := by
  unfold parse_pool_name
  rw [h1]
  simp only []
  rw [h2]
  cases hf : pyFloatTry (pyReplacePct feeTok) <;>
    simp [pyFloat, hf, Except.toOption]

/-! ### Claims about the 24-hour yield calculator -/

/-- C1: for a pool record with positive reserve `r`, parsed fee tier `f` and
24-hour volume `v`, `calculate_apy_24h` returns exactly
`v * (f / 100) / r * 365 * 100`; in particular `v = 1000000, r = 500000,
f = 0.3` gives `219`. -/
theorem c1_apy24h_exact_formula :
    (∀ v r f : ℚ, 0 < r →
      calculate_apy_24h ⟨.num v, .num r⟩ (some f) = v * (f / 100) / r * 365 * 100) ∧
    calculate_apy_24h ⟨.num 1000000, .num 500000⟩ (some (3 / 10)) = 219 := by
  constructor
  · intro v r f hr
    simp [calculate_apy_24h, calculate_apy_24h_try, PyField.toFloat, hr.ne']
  · norm_num [calculate_apy_24h, calculate_apy_24h_try, PyField.toFloat]

theorem c1_apy24h_exact_formula_witness :
    calculate_apy_24h ⟨.num 1000000, .num 500000⟩ (some (3 / 10)) =
      1000000 * ((3 / 10) / 100) / 500000 * 365 * 100 :=
  c1_apy24h_exact_formula.1 1000000 500000 (3 / 10) (by norm_num)

/-- C2 fails as stated: a negative reserve passes the `reserve_usd == 0`
guard of `calculate_apy_24h`, so the division by the negative denominator
happens and the result is `-219`, not `0`, at volume `1000000`, reserve
`-500000`, fee `0.3`. -/
theorem c2_counterexample :
    calculate_apy_24h ⟨.num 1000000, .num (-500000)⟩ (some (3 / 10)) = -219 ∧
    (-219 : ℚ) ≠ 0 := by
  constructor
  · norm_num [calculate_apy_24h, calculate_apy_24h_try, PyField.toFloat]
  · norm_num

/-- C2 (amended): an absent fee tier or a reserve/TVL equal to zero makes
both calculators return exactly `0` without dividing, but a strictly
negative reserve/TVL is not guarded: both calculators divide by it and
return the (negative) formula value. -/
theorem c2_zero_guards :
    (∀ pool : Pool24, calculate_apy_24h pool none = 0) ∧
    (∀ (v : ℚ) (fee : Option ℚ), calculate_apy_24h ⟨.num v, .num 0⟩ fee = 0) ∧
    (∀ v r f : ℚ, r < 0 →
      calculate_apy_24h ⟨.num v, .num r⟩ (some f) = v * (f / 100) / r * 365 * 100) ∧
    (∀ (v30 : Option ℚ) (tvl : ℚ), calculate_apy_30d v30 tvl none = 0) ∧
    (∀ (v30 fee : Option ℚ), calculate_apy_30d v30 0 fee = 0) ∧
    (∀ v t f : ℚ, t < 0 →
      calculate_apy_30d (some v) t (some f) = v * (f / 100) / t * ((365 : ℚ) / 30) * 100) := by
  refine ⟨?_, ?_, ?_, ?_, ?_, ?_⟩
  · rintro ⟨v, r⟩
    cases v <;> cases r <;>
      simp [calculate_apy_24h, calculate_apy_24h_try, PyField.toFloat]
  · intro v fee
    cases fee <;>
      simp [calculate_apy_24h, calculate_apy_24h_try, PyField.toFloat]
  · intro v r f hr
    simp [calculate_apy_24h, calculate_apy_24h_try, PyField.toFloat, hr.ne]
  · intro v30 tvl
    cases v30 <;> simp [calculate_apy_30d]
  · intro v30 fee
    cases v30 <;> cases fee <;> simp [calculate_apy_30d]
  · intro v t f ht
    simp [calculate_apy_30d, ht.ne]

theorem c2_zero_guards_witness :
    calculate_apy_24h ⟨.num 1000000, .num (-500000)⟩ (some (3 / 10)) =
      1000000 * ((3 / 10) / 100) / (-500000) * 365 * 100 :=
  c2_zero_guards.2.2.1 1000000 (-500000) (3 / 10) (by norm_num)

/-- C8: `calculate_apy_24h` is homogeneous of degree 1 in the volume:
doubling the volume doubles the result, for any positive reserve and
present fee tier. -/
theorem c8_apy24h_homogeneous :
    ∀ v r f : ℚ, 0 < r →
      calculate_apy_24h ⟨.num (2 * v), .num r⟩ (some f) =
        2 * calculate_apy_24h ⟨.num v, .num r⟩ (some f) := by
  intro v r f hr
  simp only [calculate_apy_24h, calculate_apy_24h_try, PyField.toFloat, hr.ne',
    if_false, ite_false]
  ring

theorem c8_apy24h_homogeneous_witness :
    calculate_apy_24h ⟨.num (2 * 7), .num 3⟩ (some 5) =
      2 * calculate_apy_24h ⟨.num 7, .num 3⟩ (some 5) :=
  c8_apy24h_homogeneous 7 3 5 (by norm_num)

/-- C10: `calculate_apy_24h` maps every exception of its `try:` body
(`KeyError`, `ValueError`, `TypeError` from a missing, non-numeric or
wrongly-typed volume or reserve field) to the result `0` instead of
propagating it. -/
theorem c10_apy24h_never_raises :
    (∀ (pool : Pool24) (fee : Option ℚ) (e : PyExn),
      calculate_apy_24h_try pool fee = .error e → calculate_apy_24h pool fee = 0) ∧
    (∀ (r : PyField) (fee : Option ℚ), calculate_apy_24h ⟨.missing, r⟩ fee = 0) ∧
    (∀ (v : PyField) (fee : Option ℚ), calculate_apy_24h ⟨v, .nonNumericStr⟩ fee = 0) ∧
    (∀ (v : PyField) (fee : Option ℚ), calculate_apy_24h ⟨v, .wrongType⟩ fee = 0) := by
  refine ⟨?_, ?_, ?_, ?_⟩
  · intro pool fee e h
    simp [calculate_apy_24h, h]
  · intro r fee
    simp [calculate_apy_24h, calculate_apy_24h_try, PyField.toFloat]
  · intro v fee
    cases v <;> simp [calculate_apy_24h, calculate_apy_24h_try, PyField.toFloat]
  · intro v fee
    cases v <;> simp [calculate_apy_24h, calculate_apy_24h_try, PyField.toFloat]

theorem c10_apy24h_never_raises_witness :
    calculate_apy_24h ⟨.missing, .num 500000⟩ (some (3 / 10)) = 0 :=
  c10_apy24h_never_raises.1 ⟨.missing, .num 500000⟩ (some (3 / 10)) .keyError rfl

/-! ### Claims about the historical (per-day series) yield calculation -/

/-- C3 fails as stated: on the 10-day series with total fees 50000 and
average TVL 1000000 the formula `(50000 / 1000000) * (365 / 10) * 100`
computed by `calculate_apy_from_thegraph_data` gives `182.5` (= 365/2), not
the `1825.0` the claim asserts; and `calculate_apy_30d` of
`analyze_pools_with_30d_data.py` annualizes a 10-day series' totals with a
fixed `365 / 30`, not with the actual day count. -/
theorem c3_counterexample :
    (calculate_apy_from_thegraph_data
        (List.replicate 10 ⟨0, 1000000, 5000⟩)).apy_30d = 365 / 2 ∧
    ((365 : ℚ) / 2) ≠ 1825 ∧
    calculate_apy_30d (some 1000000) 1000000 (some (3 / 10)) = 73 / 20 ∧
    ((73 : ℚ) / 20) ≠ 1000000 * ((3 / 10) / 100) / 1000000 * ((365 : ℚ) / 10) * 100 := by
  refine ⟨?_, by norm_num, by norm_num [calculate_apy_30d], by norm_num⟩
  simp [calculate_apy_from_thegraph_data, List.replicate]
  norm_num

/-- C3 (amended): `calculate_apy_from_thegraph_data` annualizes with
`windowDays` equal to the number of days actually present in the series
(not a fixed 30): on a series whose days all have positive TVL the result is
`(sum of fees / average TVL) * (365 / day count) * 100`, so the 10-day
series with total fees 50000 and average TVL 1000000 yields `182.5`.
`calculate_apy_30d` of `analyze_pools_with_30d_data.py`, in contrast,
always annualizes with a fixed `365 / 30`. -/
theorem c3_window_days_actual :
    (∀ days : List DayData, days ≠ [] → (∀ d ∈ days, 0 < d.tvlUSD) →
      (calculate_apy_from_thegraph_data days).apy_30d =
        (days.map (·.feesUSD)).sum /
            ((days.map (·.tvlUSD)).sum / (days.length : ℚ)) *
          ((365 : ℚ) / (days.length : ℚ)) * 100) ∧
    (calculate_apy_from_thegraph_data
        (List.replicate 10 ⟨0, 1000000, 5000⟩)).apy_30d = 365 / 2 ∧
    (∀ v tvl f : ℚ, 0 < tvl →
      calculate_apy_30d (some v) tvl (some f) =
        v * (f / 100) / tvl * ((365 : ℚ) / 30) * 100) := by
  refine ⟨?_, by simp [calculate_apy_from_thegraph_data, List.replicate]; norm_num, ?_⟩
  · intro days hne hpos
    have hmapne : days.map (·.tvlUSD) ≠ [] := by simpa using hne
    have hfil : (days.map (·.tvlUSD)).filter (fun t => 0 < t) = days.map (·.tvlUSD) := by
      rw [List.filter_eq_self]
      intro a ha
      rcases List.mem_map.mp ha with ⟨d, hd, rfl⟩
      simpa using hpos d hd
    have hlen : 0 < days.length := List.length_pos.mpr hne
    have hsum : 0 < (days.map (·.tvlUSD)).sum := by
      refine List.sum_pos _ ?_ hmapne
      intro x hx
      rcases List.mem_map.mp hx with ⟨d, hd, rfl⟩
      exact hpos d hd
    have havg : 0 < (days.map (·.tvlUSD)).sum / ((days.map (·.tvlUSD)).length : ℚ) := by
      apply div_pos hsum
      simpa using hlen
    simp only [calculate_apy_from_thegraph_data, if_neg hne, hfil, if_neg hmapne,
      List.length_map]
    rw [if_pos]
    exact ⟨by simpa [List.length_map] using havg, hlen⟩
  · intro v tvl f htvl
    simp [calculate_apy_30d, htvl.ne']

theorem c3_window_days_actual_witness :
    (calculate_apy_from_thegraph_data (List.replicate 10 ⟨0, 1000000, 5000⟩)).apy_30d =
      ((List.replicate 10 (⟨0, 1000000, 5000⟩ : DayData)).map (·.feesUSD)).sum /
          (((List.replicate 10 (⟨0, 1000000, 5000⟩ : DayData)).map (·.tvlUSD)).sum /
            ((List.replicate 10 (⟨0, 1000000, 5000⟩ : DayData)).length : ℚ)) *
        ((365 : ℚ) / ((List.replicate 10 (⟨0, 1000000, 5000⟩ : DayData)).length : ℚ)) * 100 :=
  c3_window_days_actual.1 (List.replicate 10 ⟨0, 1000000, 5000⟩) (by simp)
    (by intro d hd; rw [List.eq_of_mem_replicate hd]; norm_num)

/-- C5 fails as stated: `calculate_apy_from_thegraph_data` drops days with
non-positive TVL from the average.  On the two-day series with TVLs 100 and
0 it uses an average TVL of 100, while the arithmetic mean over every day
(the claim's denominator) is 50. -/
theorem c5_counterexample :
    (calculate_apy_from_thegraph_data
        [⟨0, 100, 10⟩, ⟨0, 0, 0⟩]).avg_tvl_usd = 100 ∧
    ((([⟨0, 100, 10⟩, ⟨0, 0, 0⟩] : List DayData).map (·.tvlUSD)).sum /
        (([⟨0, 100, 10⟩, ⟨0, 0, 0⟩] : List DayData).length : ℚ)) = 50 ∧
    (100 : ℚ) ≠ 50 := by
  refine ⟨by simp [calculate_apy_from_thegraph_data], by norm_num, by norm_num⟩

/-- C5 (amended): for every non-empty per-day series the numerator is the
sum of every day's fees in both historical calculators, and
`fetch_30d_volume_from_thegraph` averages every day's TVL; but
`calculate_apy_from_thegraph_data` averages only the days whose TVL is
positive, so the two denominators agree exactly when every day's TVL is
positive. -/
theorem c5_series_aggregation :
    (∀ days : List DayData, days ≠ [] →
      fetch_30d_volume_from_thegraph days =
        some ((days.map (·.volumeUSD)).sum,
              (days.map (·.tvlUSD)).sum / (days.length : ℚ),
              (days.map (·.feesUSD)).sum)) ∧
    (∀ days : List DayData,
      (calculate_apy_from_thegraph_data days).total_fees_usd =
        (days.map (·.feesUSD)).sum) ∧
    (∀ days : List DayData,
      (calculate_apy_from_thegraph_data days).avg_tvl_usd =
        (if ((days.map (·.tvlUSD)).filter (fun t => 0 < t)) = [] then 0
         else ((days.map (·.tvlUSD)).filter (fun t => 0 < t)).sum /
           ((((days.map (·.tvlUSD)).filter (fun t => 0 < t)).length : ℕ) : ℚ))) ∧
    (∀ days : List DayData, days ≠ [] → (∀ d ∈ days, 0 < d.tvlUSD) →
      (calculate_apy_from_thegraph_data days).avg_tvl_usd =
        (days.map (·.tvlUSD)).sum / (days.length : ℚ)) := by
  refine ⟨?_, ?_, ?_, ?_⟩
  · intro days hne
    simp [fetch_30d_volume_from_thegraph, hne]
  · intro days
    cases days with
    | nil => simp [calculate_apy_from_thegraph_data]
    | cons d ds => simp [calculate_apy_from_thegraph_data]
  · intro days
    cases days with
    | nil => simp [calculate_apy_from_thegraph_data]
    | cons d ds => simp [calculate_apy_from_thegraph_data]
  · intro days hne hpos
    have hfil : (days.map (·.tvlUSD)).filter (fun t => 0 < t) = days.map (·.tvlUSD) := by
      rw [List.filter_eq_self]
      intro a ha
      rcases List.mem_map.mp ha with ⟨d, hd, rfl⟩
      simpa using hpos d hd
    have hmapne : days.map (·.tvlUSD) ≠ [] := by simpa using hne
    simp [calculate_apy_from_thegraph_data, hne, hfil, hmapne]

theorem c5_series_aggregation_witness :
    fetch_30d_volume_from_thegraph [⟨7, 100, 10⟩] =
      some ((([⟨7, 100, 10⟩] : List DayData).map (·.volumeUSD)).sum,
            (([⟨7, 100, 10⟩] : List DayData).map (·.tvlUSD)).sum /
              ((([⟨7, 100, 10⟩] : List DayData).length : ℕ) : ℚ),
            (([⟨7, 100, 10⟩] : List DayData).map (·.feesUSD)).sum) :=
  c5_series_aggregation.1 [⟨7, 100, 10⟩] (by simp)


/-! ### Eligibility filter and ranking claims -/

/-- C6: a pool is allowed exactly when its display name parses into two
token symbols whose upper-cased forms both lie in the union of the three
allowlist sets (stablecoins, major-coin variants, top-100 symbols).  The
top-100 set is a parameter (it is loaded from an external snapshot file);
the empty string is assumed not to be listed in it. -/
theorem c6_is_allowed_pool_iff :
    ∀ (top100 : List PyStr) (name : PyStr), ([] : PyStr) ∉ top100 →
      (is_allowed_pool top100 name = true ↔
        ∃ t1 t2 fee, parse_pool_name name = (some t1, some t2, fee) ∧
          (pyUpper t1 ∈ STABLECOINS ∨ pyUpper t1 ∈ MAJOR_COINS ∨ pyUpper t1 ∈ top100) ∧
          (pyUpper t2 ∈ STABLECOINS ∨ pyUpper t2 ∈ MAJOR_COINS ∨ pyUpper t2 ∈ top100)) := by
  intro top100 name htop
  rcases hpn : parse_pool_name name with ⟨o1, o2, fee⟩
  have hallow : ∀ t : PyStr, is_allowed_token top100 t = true ↔
      (pyUpper t ∈ STABLECOINS ∨ pyUpper t ∈ MAJOR_COINS ∨ pyUpper t ∈ top100) := by
    intro t
    simp [is_allowed_token, or_assoc]
  have hempty : ¬(pyUpper [] ∈ STABLECOINS ∨ pyUpper [] ∈ MAJOR_COINS ∨
      pyUpper [] ∈ top100) := by
    intro h
    rcases h with h | h | h
    · revert h; decide
    · revert h; decide
    · exact htop h
  cases o1 with
  | none =>
    simp only [is_allowed_pool, hpn]
    constructor
    · intro h; cases h
    · rintro ⟨t1, t2, f, heq, -, -⟩
      cases heq
  | some t1 =>
    cases o2 with
    | none =>
      simp only [is_allowed_pool, hpn]
      constructor
      · intro h; cases h
      · rintro ⟨t1', t2', f, heq, -, -⟩
        injection heq with a bc
        injection bc with b c
        cases b
    | some t2 =>
      simp only [is_allowed_pool, hpn]
      constructor
      · intro h
        split at h
        · cases h
        · rcases (Bool.and_eq_true _ _).mp h with ⟨ha1, ha2⟩
          exact ⟨t1, t2, fee, rfl, (hallow t1).mp ha1, (hallow t2).mp ha2⟩
      · rintro ⟨t1', t2', f, heq, hm1, hm2⟩
        injection heq with a bc
        injection bc with b c
        obtain rfl : t1 = t1' := Option.some.inj a
        obtain rfl : t2 = t2' := Option.some.inj b
        have h1 : t1 ≠ [] := by rintro rfl; exact hempty hm1
        have h2 : t2 ≠ [] := by rintro rfl; exact hempty hm2
        rw [if_neg (by simp [h1, h2])]
        exact (Bool.and_eq_true _ _).mpr ⟨(hallow t1).mpr hm1, (hallow t2).mpr hm2⟩

theorem c6_is_allowed_pool_iff_witness :
    ([] : PyStr) ∉ [pys "LINK"] ∧
    is_allowed_pool [pys "LINK"] (pys "WETH / USDC 0.05%") = true :=
  ⟨by decide,
   (c6_is_allowed_pool_iff [pys "LINK"] (pys "WETH / USDC 0.05%") (by decide)).mpr
     ⟨pys "WETH", pys "USDC", some (1 / 20),
      by
        simp +decide [parse_pool_name, pySplitSlash, pySplitWs, pyStrip, pyUpper,
          pyReplacePct, pyFloatTry, parseSign, parseMantissa, natOfDigits, splitOnPred,
          isPySpace, stripTrailing, isDigit, pys]
        norm_num,
      by decide, by decide⟩⟩

/-- C7: `pools_sorted` is sorted by the ranking key `apy_combined`
descending, and is stable: two records with equal key keep their relative
input order in the output. -/
theorem c7_pools_sorted_stable :
    ∀ pools : List PoolInfo,
      (pools_sorted pools).Sorted (fun a b => b.apy_combined ≤ a.apy_combined) ∧
      ∀ a b : PoolInfo, a.apy_combined = b.apy_combined →
        List.Sublist [a, b] pools → List.Sublist [a, b] (pools_sorted pools) := by
  intro pools
  constructor
  · haveI : IsTotal PoolInfo (fun a b => b.apy_combined ≤ a.apy_combined) :=
      ⟨fun _ _ => le_total _ _⟩
    haveI : IsTrans PoolInfo (fun a b => b.apy_combined ≤ a.apy_combined) :=
      ⟨fun _ _ _ h1 h2 => le_trans h2 h1⟩
    exact List.sorted_insertionSort _ pools
  · intro a b hk hsub
    exact List.pair_sublist_insertionSort (le_of_eq hk.symm) hsub

theorem c7_pools_sorted_stable_witness :
    List.Sublist [(⟨pys "A", 1⟩ : PoolInfo), ⟨pys "B", 1⟩]
      (pools_sorted [⟨pys "C", 5⟩, ⟨pys "A", 1⟩, ⟨pys "B", 1⟩]) :=
  (c7_pools_sorted_stable [⟨pys "C", 5⟩, ⟨pys "A", 1⟩, ⟨pys "B", 1⟩]).2
    ⟨pys "A", 1⟩ ⟨pys "B", 1⟩ rfl (List.Sublist.cons _ (List.Sublist.refl _))

/-! ### Pool-name parser claims -/

theorem parse_pool_name_none_of_short_slash {name : PyStr}
    (h : (pySplitSlash name).length < 2) :
    parse_pool_name name = (none, none, none) := by
  unfold parse_pool_name
  cases hs : pySplitSlash name with
  | nil => rfl
  | cons p0 t =>
    cases t with
    | nil => rfl
    | cons p1 r =>
      rw [hs] at h
      simp at h
      omega

theorem parse_pool_name_none_of_short_ws {name p0 p1 : PyStr} {rest : List PyStr}
    (h1 : pySplitSlash name = p0 :: p1 :: rest)
    (h2 : (pySplitWs (pyStrip p1)).length < 2) :
    parse_pool_name name = (none, none, none) := by
  unfold parse_pool_name
  rw [h1]
  simp only []
  cases hw : pySplitWs (pyStrip p1) with
  | nil => rfl
  | cons t2 t =>
    cases t with
    | nil => rfl
    | cons feeTok r2 =>
      rw [hw] at h2
      simp at h2
      omega

/-- C9: `parse_pool_name` is total and follows exactly three cases: fewer
than two `'/'`-segments gives `(None, None, None)`; fewer than two
whitespace tokens in the (stripped) second segment gives
`(None, None, None)`; otherwise both tokens are returned upper-cased with
the fee tier given by `float` of the second right-hand token (with `'%'`
removed), absent when the conversion fails — segments beyond the first two
and tokens beyond the second are ignored. -/
theorem c9_parse_pool_name_total :
    ∀ name : PyStr,
      ((pySplitSlash name).length < 2 → parse_pool_name name = (none, none, none)) ∧
      (∀ (p0 p1 : PyStr) (rest : List PyStr),
        pySplitSlash name = p0 :: p1 :: rest →
        (pySplitWs (pyStrip p1)).length < 2 →
        parse_pool_name name = (none, none, none)) ∧
      (∀ (p0 p1 : PyStr) (rest : List PyStr) (t2 feeTok : PyStr) (rest2 : List PyStr),
        pySplitSlash name = p0 :: p1 :: rest →
        pySplitWs (pyStrip p1) = t2 :: feeTok :: rest2 →
        parse_pool_name name =
          (some (pyUpper (pyStrip p0)), some (pyUpper t2),
           pyFloat (pyReplacePct feeTok))) := by
  intro name
  refine ⟨?_, ?_, ?_⟩
  · exact parse_pool_name_none_of_short_slash
  · intro p0 p1 rest h1 h2
    exact parse_pool_name_none_of_short_ws h1 h2
  · intro p0 p1 rest t2 feeTok rest2 h1 h2
    exact parse_pool_name_eq h1 h2

theorem c9_parse_pool_name_total_witness :
    parse_pool_name (pys "WETH / USDC 0.05%") =
      (some (pyUpper (pyStrip (pys "WETH "))), some (pyUpper (pys "USDC")),
       pyFloat (pyReplacePct (pys "0.05%"))) :=
  (c9_parse_pool_name_total (pys "WETH / USDC 0.05%")).2.2 (pys "WETH ")
    (pys " USDC 0.05%") [] (pys "USDC") (pys "0.05%") [] (by decide) (by decide)

/-- C4 fails as stated: for the name `"WETH / USDC abc"` the fee segment
`"abc"` does not parse as a number and `parse_pool_name` duly reports the
fee tier absent, but the `analyze_all_pools.py` pipeline substitutes the
default fee rate `0.003` (0.3%) because the name contains no `'%'`. -/
theorem c4_counterexample :
    pyFloat (pys "abc") = none ∧
    (parse_pool_name (pys "WETH / USDC abc")).2.2 = none ∧
    fee_rate (pys "WETH / USDC abc") = .ok (3 / 1000) := by
  refine ⟨rfl, rfl, rfl⟩

/-- C4 (amended): for every fee string of the form `<number>%` the parser
recovers exactly that number, and for a fee segment that does not parse as
a number `parse_pool_name` reports the fee tier absent with no default; the
`analyze_all_pools.py` pipeline, however, substitutes a default fee rate of
`0.003` whenever the display name contains no `'%'` character. -/
theorem c4_fee_parse_and_default :
    (∀ (s : PyStr) (q : ℚ), pyFloat s = some q → '/' ∉ s → '%' ∉ s →
      (∀ c ∈ s, isPySpace c = false) →
      parse_pool_name (pys "WETH / USDC " ++ (s ++ pys "%")) =
        (some (pys "WETH"), some (pys "USDC"), some q)) ∧
    (∀ (name p0 p1 : PyStr) (rest : List PyStr) (t2 feeTok : PyStr)
        (rest2 : List PyStr),
      pySplitSlash name = p0 :: p1 :: rest →
      pySplitWs (pyStrip p1) = t2 :: feeTok :: rest2 →
      pyFloat (pyReplacePct feeTok) = none →
      parse_pool_name name = (some (pyUpper (pyStrip p0)), some (pyUpper t2), none)) ∧
    (∀ name : PyStr, '%' ∉ name → fee_rate name = .ok (3 / 1000)) := by
  refine ⟨?_, ?_, ?_⟩
  · intro s q hq hslash hpct hws
    have hA : pySplitSlash (pys "WETH / USDC " ++ (s ++ pys "%")) =
        [pys "WETH ", pys " USDC " ++ (s ++ pys "%")] := by
      have hname : pys "WETH / USDC " ++ (s ++ pys "%") =
          pys "WETH " ++ ('/' :: (pys " USDC " ++ (s ++ pys "%"))) := by
        rw [show pys "WETH / USDC " = pys "WETH " ++ ('/' :: pys " USDC ") from rfl,
          List.append_assoc]
        rfl
      have hUSDC : ∀ c ∈ pys " USDC ", (decide (c = '/')) = false := by decide
      have hrest : splitOnPred (· = '/') (pys " USDC " ++ (s ++ pys "%")) =
          [pys " USDC " ++ (s ++ pys "%")] := by
        apply splitOnPred_of_all_not
        intro c hc
        rcases List.mem_append.mp hc with h | h
        · exact hUSDC c h
        · rcases List.mem_append.mp h with h | h
          · exact decide_eq_false fun hc' => hslash (hc' ▸ h)
          · have : c = '%' := by simpa [pys] using h
            subst this
            decide
      have hy : splitOnPred (· = '/') ('/' :: (pys " USDC " ++ (s ++ pys "%"))) =
          [] :: [pys " USDC " ++ (s ++ pys "%")] := by
        rw [splitOnPred_cons_true (by decide), hrest]
      have hWETH : ∀ c ∈ pys "WETH ", (decide (c = '/')) = false := by decide
      have happ := splitOnPred_append_left hWETH hy
      unfold pySplitSlash
      rw [hname, happ]
      simp
    have hB : pyStrip (pys " USDC " ++ (s ++ pys "%")) =
        pys "USDC " ++ (s ++ pys "%") := by
      have h1 : (pys " USDC " ++ (s ++ pys "%")).dropWhile isPySpace
          = pys "USDC " ++ (s ++ pys "%") := by
        rw [show pys " USDC " ++ (s ++ pys "%") =
          ' ' :: 'U' :: (pys "SDC " ++ (s ++ pys "%")) from rfl]
        rw [List.dropWhile_cons, if_pos (by decide), List.dropWhile_cons,
          if_neg (by decide)]
        rfl
      unfold pyStrip
      rw [h1, show pys "USDC " ++ (s ++ pys "%") = (pys "USDC " ++ s) ++ ['%'] from by
        rw [← List.append_assoc]
        rfl]
      rw [stripTrailing_append_last (by decide), List.append_assoc]
    have hX : splitOnPred isPySpace (s ++ pys "%") = [s ++ pys "%"] := by
      apply splitOnPred_of_all_not
      intro c hc
      rcases List.mem_append.mp hc with h | h
      · exact hws c h
      · have : c = '%' := by simpa [pys] using h
        subst this
        decide
    have hy2 : splitOnPred isPySpace (' ' :: (s ++ pys "%")) = [] :: [s ++ pys "%"] := by
      rw [splitOnPred_cons_true (by decide), hX]
    have hU : ∀ c ∈ pys "USDC", isPySpace c = false := by decide
    have happ2 := splitOnPred_append_left hU hy2
    have hsne : s ++ pys "%" ≠ [] := by simp [pys]
    have hC : pySplitWs (pys "USDC " ++ (s ++ pys "%")) = [pys "USDC", s ++ pys "%"] := by
      unfold pySplitWs
      rw [show pys "USDC " ++ (s ++ pys "%") = pys "USDC" ++ (' ' :: (s ++ pys "%")) from
        rfl]
      rw [happ2]
      rw [List.filter_cons, List.filter_cons]
      simp only [List.append_nil]
      simp [hsne]
      decide
    have hmain := parse_pool_name_eq hA (by rw [hB]; exact hC)
    rw [hmain]
    have hrep : pyReplacePct (s ++ pys "%") = s := by
      unfold pyReplacePct
      rw [List.filter_append]
      have hfs : List.filter (fun x => decide (x ≠ '%')) s = s := by
        rw [List.filter_eq_self]
        intro a ha
        exact decide_eq_true fun h => hpct (h ▸ ha)
      rw [hfs, show List.filter (fun x => decide (x ≠ '%')) (pys "%") = [] from by decide,
        List.append_nil]
    rw [hrep, hq]
    rw [show pyUpper (pyStrip (pys "WETH ")) = pys "WETH" from by decide,
      show pyUpper (pys "USDC") = pys "USDC" from by decide]
  · intro name p0 p1 rest t2 feeTok rest2 h1 h2 hfee
    rw [parse_pool_name_eq h1 h2, hfee]
  · intro name h
    simp [fee_rate, h]

theorem c4_fee_parse_and_default_witness :
    parse_pool_name (pys "WETH / USDC " ++ (pys "0.05" ++ pys "%")) =
      (some (pys "WETH"), some (pys "USDC"), some (1 / 20)) :=
  c4_fee_parse_and_default.1 (pys "0.05") (1 / 20)
    (by
      simp +decide [pyFloat, pyFloatTry, pyStrip, parseSign, parseMantissa,
        natOfDigits, splitOnPred, isPySpace, stripTrailing, isDigit, Except.toOption]
      norm_num)
    (by decide) (by decide) (by decide)
